import Mathlib

/-!
Shallow embedding of the wiggle guest-memory access layer and parts of its
interface code generator, with theorems checking the natural-language
specification against the code.

Machine integers are modelled as `Nat` with explicit `% 2^w` / range
hypotheses where the Rust code relies on a fixed width; fallible Rust
functions returning `Result` are modelled with `Except`; `&mut` state is
modelled by explicit state passing.
-/

set_option maxRecDepth 4096

deriving instance DecidableEq for Except

/-- Width constants for the machine integers appearing in the code. -/
def U32 : Nat := 2 ^ 32

def USIZE : Nat := 2 ^ 64

/-- Embedding of `Region` (crates/memory/src/region.rs): a pair
`(start : u32, len : u32)` denoting a byte range of guest memory. -/
structure Region where
  start : Nat
  len : Nat
  deriving DecidableEq

/-- Rust `x - 1` on `u32` with release-mode (wrapping) semantics, as used in
`Region::overlaps` for `self.len - 1` (for `len = 0` this wraps to
`u32::MAX`; a debug build would abort instead). Inputs are `< 2^32`. -/
def u32WrappingSub1 (x : Nat) : Nat :=
  (x + (U32 - 1)) % U32

/-- Embedding of `Region::overlaps` (crates/memory/src/region.rs lines
12-40): both endpoints are widened to `u64`, the inclusive end is
`start + (len - 1)`, and four interval membership tests are made, each with
a strict `<` against the inclusive end. -/
def Region.overlaps (self rhs : Region) : Bool :=
  let self_start := self.start
  let self_end := self_start + u32WrappingSub1 self.len
  let rhs_start := rhs.start
  let rhs_end := rhs_start + u32WrappingSub1 rhs.len
  if rhs_start ≥ self_start && rhs_start < self_end then true
  else if rhs_end ≥ self_start && rhs_end < self_end then true
  else if self_start ≥ rhs_start && self_start < rhs_end then true
  else if self_end ≥ rhs_start && self_end < rhs_end then true
  else false

/-- Embedding of `GuestError` (crates/runtime/src/error.rs together with the
variants raised in crates/runtime/src/lib.rs). -/
inductive GuestError where
  | invalidFlagValue (typeName : String)
  | invalidEnumValue (typeName : String)
  | ptrOutOfBounds (r : Region)
  | ptrNotAligned (r : Region) (align : Nat)
  | ptrBorrowed (r : Region)
  | ptrOverflow
  | invalidUtf8
  deriving DecidableEq

/-- Embedding of `GuestBorrows` (crates/runtime/src/borrow.rs): a flat list
of currently borrowed regions. -/
structure GuestBorrows where
  borrows : List Region
  deriving DecidableEq

/-- `GuestBorrows::new`. -/
def GuestBorrows.new : GuestBorrows := ⟨[]⟩

/-- Embedding of `GuestBorrows::is_borrowed`:
`!self.borrows.iter().all(|b| !b.overlaps(r))`. -/
def GuestBorrows.is_borrowed (self : GuestBorrows) (r : Region) : Bool :=
  !(self.borrows.all fun b => !(b.overlaps r))

/-- Embedding of `GuestBorrows::borrow` (crates/runtime/src/borrow.rs lines
20-27); the mutated ledger is returned explicitly. -/
def GuestBorrows.borrow (self : GuestBorrows) (r : Region) :
    Except GuestError GuestBorrows :=
  if self.is_borrowed r then .error (.ptrBorrowed r)
  else .ok ⟨self.borrows ++ [r]⟩

/-- Embedding of a `GuestMemory` implementation (crates/runtime/src/lib.rs):
`base()` returns host pointer `base_ptr` and length `data.length`; `data`
is the guest buffer's byte contents. -/
structure GuestMemory where
  base_ptr : Nat
  data : List Nat
  deriving DecidableEq

/-- The `u32` buffer length returned by `GuestMemory::base`. -/
def GuestMemory.base_len (m : GuestMemory) : Nat := m.data.length

/-- Embedding of `GuestMemory::validate_size_align` (crates/runtime/src/lib.rs
lines 113-141): checked `usize` additions for start and end, then a bounds
check against `base_ptr + base_len`, then the alignment check, returning the
host address `base_ptr + offset`. -/
def GuestMemory.validate_size_align (m : GuestMemory)
    (offset align len : Nat) : Except GuestError Nat :=
  if m.base_ptr + offset ≥ USIZE then .error .ptrOverflow
  else if m.base_ptr + offset + len ≥ USIZE then .error .ptrOverflow
  else if m.base_ptr + offset + len > m.base_ptr + m.base_len then
    .error (.ptrOutOfBounds ⟨offset, len⟩)
  else if (m.base_ptr + offset) % align ≠ 0 then
    .error (.ptrNotAligned ⟨offset, len⟩ align)
  else .ok (m.base_ptr + offset)

/-- C1: the spec's overlap predicate on half-open intervals,
`a0 < b0 + lenB ∧ b0 < a0 + lenA`, stated from the spec's words for
comparison with `Region.overlaps`. -/
def specOverlaps (a b : Region) : Bool :=
  decide (a.start < b.start + b.len ∧ b.start < a.start + a.len)

/-- C1: `Region::overlaps` misses regions that overlap only at the boundary
byte: `A = (0, 2)` and `B = (1, 1)` share byte 1 (so the spec's half-open
condition `a0 < b0+lenB ∧ b0 < a0+lenA` holds), yet the code returns
`false`, because each membership test compares strictly against the
inclusive end `start + (len - 1)`. -/
theorem region_overlaps_misses_boundary_overlap :
    Region.overlaps ⟨0, 2⟩ ⟨1, 1⟩ = false ∧
    specOverlaps ⟨0, 2⟩ ⟨1, 1⟩ = true ∧
    Region.overlaps ⟨1, 1⟩ ⟨1, 1⟩ = false ∧
    specOverlaps ⟨1, 1⟩ ⟨1, 1⟩ = true := by
  decide

/-- C3: the ledger accepts the same nonzero-length region `(0, 1)` twice:
`borrow` on a fresh ledger records it, and a second `borrow` of the very
same region is accepted again because `Region::overlaps` reports a
one-byte region as not overlapping itself, while the claim requires the
second borrow to fail with `PtrBorrowed`. -/
theorem guestBorrows_accepts_identical_borrow_twice :
    GuestBorrows.borrow GuestBorrows.new ⟨0, 1⟩ = .ok ⟨[⟨0, 1⟩]⟩ ∧
    GuestBorrows.borrow ⟨[⟨0, 1⟩]⟩ ⟨0, 1⟩ = .ok ⟨[⟨0, 1⟩, ⟨0, 1⟩]⟩ ∧
    specOverlaps ⟨0, 1⟩ ⟨0, 1⟩ = true := by
  decide

/-- C2: `validate_size_align` returns `Ok(base + offset)` exactly when the
access is in bounds, the `usize` address arithmetic does not overflow, and
the host address is `align`-aligned; otherwise it fails with `PtrOverflow`,
`PtrOutOfBounds` or `PtrNotAligned`, checked in that order.  Hypotheses:
`align` is nonzero (Rust `%` by zero aborts) and the provider's buffer
itself fits in the address space (so the unchecked `base_ptr + base_len`
addition in the code is exact). -/
theorem validate_size_align_spec (m : GuestMemory) (offset align len : Nat)
    (halign : 0 < align) (hfit : m.base_ptr + m.base_len < USIZE) :
    (m.validate_size_align offset align len = .ok (m.base_ptr + offset) ↔
      offset + len ≤ m.base_len ∧ m.base_ptr + offset + len < USIZE ∧
        (m.base_ptr + offset) % align = 0) ∧
    (USIZE ≤ m.base_ptr + offset + len →
      m.validate_size_align offset align len = .error .ptrOverflow) ∧
    (m.base_ptr + offset + len < USIZE → m.base_len < offset + len →
      m.validate_size_align offset align len =
        .error (.ptrOutOfBounds ⟨offset, len⟩)) ∧
    (m.base_ptr + offset + len < USIZE → offset + len ≤ m.base_len →
      (m.base_ptr + offset) % align ≠ 0 →
      m.validate_size_align offset align len =
        .error (.ptrNotAligned ⟨offset, len⟩ align)) := by
  refine ⟨?_, ?_, ?_, ?_⟩ <;>
    · unfold GuestMemory.validate_size_align
      split_ifs <;> simp_all <;> omega

/-- C2 witness: a concrete in-bounds, aligned access succeeds. -/
theorem validate_size_align_spec_witness :
    GuestMemory.validate_size_align ⟨4, [0, 0, 0, 0, 0, 0, 0, 0]⟩ 0 4 8 =
      .ok 4 :=
  ((validate_size_align_spec ⟨4, [0, 0, 0, 0, 0, 0, 0, 0]⟩ 0 4 8 (by decide)
    (by decide)).1).2 (by refine ⟨by decide, by decide, by decide⟩)

/-- Rust `u32::checked_mul`. -/
def u32CheckedMul (a b : Nat) : Option Nat :=
  if a * b < U32 then some (a * b) else none

/-- Rust `u32::checked_add`. -/
def u32CheckedAdd (a b : Nat) : Option Nat :=
  if a + b < U32 then some (a + b) else none

/-- Embedding of `GuestPtr` for a sized pointee (crates/runtime/src/lib.rs):
a memory handle and a `u32` offset.  The pointee type `T` is represented by
its `guest_size`, passed explicitly where the code calls `T::guest_size()`. -/
structure GuestPtr where
  mem : GuestMemory
  pointer : Nat
  deriving DecidableEq

/-- Embedding of `GuestPtr::add` (crates/runtime/src/lib.rs lines 332-344):
`amt.checked_mul(T::guest_size()).and_then(|o| self.pointer.checked_add(o))`,
returning `PtrOverflow` when either step overflows `u32`. -/
def GuestPtr.add (p : GuestPtr) (guest_size amt : Nat) :
    Except GuestError GuestPtr :=
  match (u32CheckedMul amt guest_size).bind
      (fun o => u32CheckedAdd p.pointer o) with
  | some o => .ok ⟨p.mem, o⟩
  | none => .error .ptrOverflow

/-- C5: `GuestPtr::add(n)` fails with `PtrOverflow` exactly when
`n * sizeof(T)` or `offset + n * sizeof(T)` exceeds `u32`, and otherwise
returns a pointer to the same memory at offset `offset + n * sizeof(T)`. -/
theorem guestPtr_add_spec (p : GuestPtr) (guest_size amt : Nat) :
    (p.add guest_size amt = .error .ptrOverflow ↔
      U32 ≤ amt * guest_size ∨ U32 ≤ p.pointer + amt * guest_size) ∧
    (p.pointer + amt * guest_size < U32 →
      p.add guest_size amt = .ok ⟨p.mem, p.pointer + amt * guest_size⟩) := by
  unfold GuestPtr.add u32CheckedMul u32CheckedAdd
  by_cases h1 : amt * guest_size < U32 <;>
    by_cases h2 : p.pointer + amt * guest_size < U32 <;>
      simp [h1, h2, Option.bind] <;> omega

/-- C5 witness: a concrete non-overflowing pointer advance. -/
theorem guestPtr_add_spec_witness :
    GuestPtr.add ⟨⟨0, []⟩, 4⟩ 4 2 = .ok ⟨⟨0, []⟩, 12⟩ :=
  (guestPtr_add_spec ⟨⟨0, []⟩, 4⟩ 4 2).2 (by decide)

/-- The byte of the guest buffer at index `i` (0 past the end; all callers
validate bounds first). -/
def byteAt : List Nat → Nat → Nat
  | [], _ => 0
  | b :: _, 0 => b
  | _ :: l, i + 1 => byteAt l i

/-- Replace the byte at index `i` (dropped past the end; all callers
validate bounds first). -/
def setByte : List Nat → Nat → Nat → List Nat
  | [], _, _ => []
  | _ :: l, 0, b => b :: l
  | x :: l, i + 1, b => x :: setByte l i b

/-- Read `len` bytes of the guest buffer starting at offset `off`. -/
def readBytes (data : List Nat) (off : Nat) : Nat → List Nat
  | 0 => []
  | len + 1 => byteAt data off :: readBytes data (off + 1) len

/-- Write the byte list `bs` into the guest buffer starting at offset
`off`. -/
def writeBytes (data : List Nat) (off : Nat) : List Nat → List Nat
  | [] => data
  | b :: bs => writeBytes (setByte data off b) (off + 1) bs

/-- A UTF-8 continuation byte, `0x80..=0xBF`. -/
def utf8Cont (b : Nat) : Bool := 0x80 ≤ b && b ≤ 0xBF

/-- Validity of a byte sequence as UTF-8, as decided by Rust's
`str::from_utf8` (RFC 3629: shortest forms only, no surrogates, max
U+10FFFF). -/
def validUtf8 : List Nat → Bool
  | [] => true
  | b :: rest =>
    if b ≤ 0x7F then validUtf8 rest
    else if 0xC2 ≤ b && b ≤ 0xDF then
      match rest with
      | b1 :: r => utf8Cont b1 && validUtf8 r
      | [] => false
    else if b == 0xE0 then
      match rest with
      | b1 :: b2 :: r =>
        (0xA0 ≤ b1 && b1 ≤ 0xBF) && utf8Cont b2 && validUtf8 r
      | _ => false
    else if (0xE1 ≤ b && b ≤ 0xEC) || b == 0xEE || b == 0xEF then
      match rest with
      | b1 :: b2 :: r => utf8Cont b1 && utf8Cont b2 && validUtf8 r
      | _ => false
    else if b == 0xED then
      match rest with
      | b1 :: b2 :: r =>
        (0x80 ≤ b1 && b1 ≤ 0x9F) && utf8Cont b2 && validUtf8 r
      | _ => false
    else if b == 0xF0 then
      match rest with
      | b1 :: b2 :: b3 :: r =>
        (0x90 ≤ b1 && b1 ≤ 0xBF) && utf8Cont b2 && utf8Cont b3 && validUtf8 r
      | _ => false
    else if 0xF1 ≤ b && b ≤ 0xF3 then
      match rest with
      | b1 :: b2 :: b3 :: r =>
        utf8Cont b1 && utf8Cont b2 && utf8Cont b3 && validUtf8 r
      | _ => false
    else if b == 0xF4 then
      match rest with
      | b1 :: b2 :: b3 :: r =>
        (0x80 ≤ b1 && b1 ≤ 0x8F) && utf8Cont b2 && utf8Cont b3 && validUtf8 r
      | _ => false
    else false

/-- Embedding of `GuestPtr::<str>::as_raw` (crates/runtime/src/lib.rs lines
474-493): validate bounds with alignment 1, record the region in the
ledger, then check UTF-8.  The ledger is threaded through and also returned
on error, because the Rust ledger is mutated in place and not rolled back. -/
def strAsRaw (m : GuestMemory) (bc : GuestBorrows) (base len : Nat) :
    GuestBorrows × Except GuestError (List Nat) :=
  match m.validate_size_align base 1 len with
  | .error e => (bc, .error e)
  | .ok _ =>
    match bc.borrow ⟨base, len⟩ with
    | .error e => (bc, .error e)
    | .ok bc' =>
      let s := readBytes m.data base len
      if validUtf8 s then (bc', .ok s) else (bc', .error .invalidUtf8)

/-- C6: with the raw borrow `(0, 2)` already held in the ledger,
`GuestPtr::<str>::as_raw` of the string `(base 1, len 1)` succeeds — the
byte is in bounds and valid UTF-8, but the held borrow overlaps byte 1, so
the claim requires the call to fail with `PtrBorrowed`.  It succeeds because
`Region::overlaps` misses the boundary overlap of `(0, 2)` and `(1, 1)`. -/
theorem strAsRaw_ignores_overlapping_borrow :
    strAsRaw ⟨0, [65, 65, 65, 65]⟩ ⟨[⟨0, 2⟩]⟩ 1 1 =
      (⟨[⟨0, 2⟩, ⟨1, 1⟩]⟩, .ok [65]) ∧
    specOverlaps ⟨0, 2⟩ ⟨1, 1⟩ = true := by
  decide

/-- `validate_size_align` never reports `InvalidUtf8`. -/
theorem validate_size_align_ne_invalidUtf8 (m : GuestMemory)
    (offset align len : Nat) :
    m.validate_size_align offset align len ≠ .error .invalidUtf8 := by
  unfold GuestMemory.validate_size_align
  split_ifs <;> simp

/-- Inversion for a successful `GuestBorrows::borrow`. -/
theorem borrow_ok_iff (bc bc' : GuestBorrows) (r : Region) :
    bc.borrow r = .ok bc' ↔
      bc.is_borrowed r = false ∧ bc' = ⟨bc.borrows ++ [r]⟩ := by
  unfold GuestBorrows.borrow
  split_ifs with h <;> simp_all
  exact eq_comm

/-- A ledger containing a region that `Region::overlaps` flags against `r`
reports `r` as borrowed. -/
theorem is_borrowed_of_mem_overlaps {bc : GuestBorrows} {b r : Region}
    (hm : b ∈ bc.borrows) (ho : b.overlaps r = true) :
    bc.is_borrowed r = true := by
  unfold GuestBorrows.is_borrowed
  rw [Bool.not_eq_true', Bool.eq_false_iff]
  intro hall
  rw [List.all_eq_true] at hall
  have hb := hall b hm
  simp [ho] at hb

/-- C10: when `GuestPtr::<str>::as_raw` fails with `InvalidUtf8`, the
string's region has already been pushed onto the ledger and stays there
(no rollback), so any later `borrow` — and hence any later `as_raw` that
passes its bounds check — of a region the pushed region overlaps fails
with `PtrBorrowed`, even though no raw string was ever returned. -/
theorem strAsRaw_utf8_failure_keeps_region_recorded
    (m : GuestMemory) (bc bc' : GuestBorrows) (base len : Nat)
    (h : strAsRaw m bc base len = (bc', .error .invalidUtf8)) :
    bc'.borrows = bc.borrows ++ [⟨base, len⟩] ∧
    ∀ r' : Region, Region.overlaps ⟨base, len⟩ r' = true →
      bc'.borrow r' = .error (.ptrBorrowed r') ∧
      ∀ x : Nat, m.validate_size_align r'.start 1 r'.len = .ok x →
        strAsRaw m bc' r'.start r'.len = (bc', .error (.ptrBorrowed r')) := by
  unfold strAsRaw at h
  cases hv : m.validate_size_align base 1 len with
  | error e =>
    rw [hv] at h
    cases h
    exact absurd hv (validate_size_align_ne_invalidUtf8 m base 1 len)
  | ok hostPtr =>
    rw [hv] at h
    cases hb : GuestBorrows.borrow bc ⟨base, len⟩ with
    | error e =>
      rw [hb] at h
      have he : e = GuestError.invalidUtf8 := by
        have h2 := congrArg Prod.snd h
        simpa using h2
      subst he
      unfold GuestBorrows.borrow at hb
      split_ifs at hb <;> simp_all
    | ok bc2 =>
      rw [hb] at h
      obtain ⟨-, hbc2⟩ := (borrow_ok_iff bc bc2 ⟨base, len⟩).1 hb
      have hbc' : bc' = bc2 := by
        by_cases hu : validUtf8 (readBytes m.data base len) <;>
          simp [hu] at h
        exact h.symm
      subst hbc'
      subst hbc2
      refine ⟨rfl, fun r' ho => ?_⟩
      have hbor : GuestBorrows.is_borrowed ⟨bc.borrows ++ [⟨base, len⟩]⟩ r'
          = true :=
        is_borrowed_of_mem_overlaps (by simp) ho
      have hfail : GuestBorrows.borrow ⟨bc.borrows ++ [⟨base, len⟩]⟩ r' =
          .error (.ptrBorrowed r') := by
        unfold GuestBorrows.borrow
        simp [hbor]
      refine ⟨hfail, fun x hvx => ?_⟩
      unfold strAsRaw
      rw [hvx, hfail]

/-- C10 witness: writing the invalid byte `0xFF` at offset 0 makes `as_raw`
of `(0, 1)` fail with `InvalidUtf8`, after which the overlapping region
`(0, 2)` can no longer be borrowed. -/
theorem strAsRaw_utf8_failure_witness :
    GuestBorrows.borrow ⟨[⟨0, 1⟩]⟩ ⟨0, 2⟩ = .error (.ptrBorrowed ⟨0, 2⟩) :=
  ((strAsRaw_utf8_failure_keeps_region_recorded ⟨0, [255, 65]⟩ ⟨[]⟩
    ⟨[⟨0, 1⟩]⟩ 0 1 (by decide)).2 ⟨0, 2⟩ (by decide)).1

theorem length_setByte (l : List Nat) (i b : Nat) :
    (setByte l i b).length = l.length := by
  induction l generalizing i with
  | nil => rfl
  | cons x l ih =>
    cases i with
    | zero => rfl
    | succ i => simp [setByte, ih]

theorem byteAt_setByte_self (l : List Nat) (i b : Nat) (h : i < l.length) :
    byteAt (setByte l i b) i = b := by
  induction l generalizing i with
  | nil => simp at h
  | cons x l ih =>
    cases i with
    | zero => rfl
    | succ i => exact ih i (by simpa using h)

theorem byteAt_setByte_ne (l : List Nat) (i b j : Nat) (h : i ≠ j) :
    byteAt (setByte l i b) j = byteAt l j := by
  induction l generalizing i j with
  | nil => rfl
  | cons x l ih =>
    cases i with
    | zero => cases j with
      | zero => exact absurd rfl h
      | succ j => rfl
    | succ i => cases j with
      | zero => rfl
      | succ j => exact ih i j (by omega)

theorem writeBytes_length (data : List Nat) (off : Nat) (bs : List Nat) :
    (writeBytes data off bs).length = data.length := by
  induction bs generalizing data off with
  | nil => rfl
  | cons b bs ih =>
    rw [writeBytes, ih, length_setByte]

theorem byteAt_writeBytes_lt (data : List Nat) (off i : Nat) (bs : List Nat)
    (h : i < off) : byteAt (writeBytes data off bs) i = byteAt data i := by
  induction bs generalizing data off with
  | nil => rfl
  | cons b bs ih =>
    rw [writeBytes, ih _ (off + 1) (by omega),
      byteAt_setByte_ne _ _ _ _ (by omega)]

/-- Reading back a just-written in-bounds byte range returns the written
bytes. -/
theorem readBytes_writeBytes (data : List Nat) (off : Nat) (bs : List Nat)
    (h : off + bs.length ≤ data.length) :
    readBytes (writeBytes data off bs) off bs.length = bs := by
  induction bs generalizing data off with
  | nil => rfl
  | cons b bs ih =>
    rw [List.length_cons, readBytes, writeBytes]
    have hlen : off < data.length := by simp at h; omega
    congr 1
    · rw [byteAt_writeBytes_lt _ _ _ _ (by omega)]
      exact byteAt_setByte_self _ _ _ hlen
    · exact ih (setByte data off b) (off + 1)
        (by rw [length_setByte]; simp at h; omega)

/-- Little-endian byte serialization of `v` into `k` bytes, §6 of the spec:
"integer multi-byte values are serialized LE". -/
def leBytes (v : Nat) : Nat → List Nat
  | 0 => []
  | k + 1 => v % 256 :: leBytes (v / 256) k

/-- Little-endian byte deserialization. -/
def leVal : List Nat → Nat
  | [] => 0
  | b :: bs => b + 256 * leVal bs

theorem leBytes_length (v k : Nat) : (leBytes v k).length = k := by
  induction k generalizing v with
  | zero => rfl
  | succ k ih => simp [leBytes, ih]

theorem leVal_leBytes (v k : Nat) (h : v < 256 ^ k) :
    leVal (leBytes v k) = v := by
  induction k generalizing v with
  | zero =>
    simp [leBytes, leVal]
    exact (Nat.lt_one_iff.1 (by simpa using h)).symm
  | succ k ih =>
    rw [leBytes, leVal, ih (v / 256) ?_]
    · omega
    · rw [Nat.div_lt_iff_lt_mul (by omega)]
      calc v < 256 ^ (k + 1) := h
        _ = 256 ^ k * 256 := by rw [Nat.pow_succ]

/-- A successful `validate_size_align` implies the access is in bounds. -/
theorem validate_size_align_ok_bounds {m : GuestMemory}
    {off a l x : Nat} (h : m.validate_size_align off a l = .ok x) :
    off + l ≤ m.base_len := by
  unfold GuestMemory.validate_size_align at h
  split_ifs at h <;> simp_all <;> omega

/-- Modelled from the spec: the primitive integer `GuestType::read`
implementations (crates/runtime/src/guest_type.rs is declared in lib.rs but
missing from the sources); spec §4.5: "integers ... use their natural width
and alignment; read/write perform a bounds+align check then copy bytes in
little-endian order".  `k` is the width in bytes, which is also the
alignment (spec §6: natural C-ABI alignment 1/2/4/8). -/
def uintRead (m : GuestMemory) (off k : Nat) : Except GuestError Nat :=
  match m.validate_size_align off k k with
  | .error e => .error e
  | .ok _ => .ok (leVal (readBytes m.data off k))

/-- Modelled from the spec: the primitive integer `GuestType::write`
implementations (guest_type.rs missing from the sources, spec §4.5 as for
`uintRead`); the updated memory is returned explicitly. -/
def uintWrite (m : GuestMemory) (off k : Nat) (v : Nat) :
    Except GuestError GuestMemory :=
  match m.validate_size_align off k k with
  | .error e => .error e
  | .ok _ => .ok ⟨m.base_ptr, writeBytes m.data off (leBytes v k)⟩

/-- Rust `!x` (bitwise complement) on a `w`-bit unsigned repr, as produced
by the generated `Not` impl for flag-set types
(crates/generate/src/types/flags.rs lines 104-109). -/
def notRepr (w x : Nat) : Nat := (2 ^ w - 1) ^^^ x

/-- Embedding of the generated `TryFrom<repr>` for a flag-set type
(crates/generate/src/types/flags.rs lines 111-120): error iff
`!ALL_FLAGS & value != 0`, where `mask` is the `ALL_FLAGS` constant and `w`
the repr bit width. -/
def flagsTryFrom (name : String) (w mask x : Nat) : Except GuestError Nat :=
  if notRepr w mask &&& x ≠ 0 then .error (.invalidFlagValue name)
  else .ok x

/-- Embedding of the generated `contains` for a flag-set type
(crates/generate/src/types/flags.rs lines 41-43):
`!*self & *other == Self::EMPTY_FLAGS`. -/
def flagsContains (w self other : Nat) : Bool :=
  notRepr w self &&& other == 0

/-- Embedding of the generated `GuestType::write` for a flag-set type
(crates/generate/src/types/flags.rs lines 160-163): convert to the repr and
delegate to the repr's write. -/
def flagsWrite (m : GuestMemory) (off k : Nat) (v : Nat) :
    Except GuestError GuestMemory :=
  uintWrite m off k v

/-- Embedding of the generated `GuestType::read` for a flag-set type via
`validate_read` (crates/generate/src/types/flags.rs lines 47-56, 155-158):
validate the location, read the repr integer, then `TryFrom`.  `k` is the
repr width in bytes, `mask` the `ALL_FLAGS` constant. -/
def flagsRead (name : String) (m : GuestMemory) (off k mask : Nat) :
    Except GuestError Nat :=
  match m.validate_size_align off k k with
  | .error e => .error e
  | .ok _ =>
    match uintRead m off k with
    | .error e => .error e
    | .ok reprval => flagsTryFrom name (8 * k) mask reprval

/-- C4: the generated flag-set `TryFrom<repr>` accepts `x` exactly when no
bit of `x` lies outside the declared `ALL_FLAGS` mask, and otherwise
reports `InvalidFlagValue` with the type's name. -/
theorem flags_tryFrom_spec (name : String) (w mask x : Nat)
    (hx : x < 2 ^ w) :
    (flagsTryFrom name w mask x = .ok x ↔ x &&& notRepr w mask = 0) ∧
    (x &&& notRepr w mask ≠ 0 →
      flagsTryFrom name w mask x = .error (.invalidFlagValue name)) := by
  unfold flagsTryFrom
  rw [Nat.land_comm]
  split_ifs <;> simp_all

/-- C4 witness: for the 3-flag mask `0b111` over `u8`, the value `0b101` is
accepted. -/
theorem flags_tryFrom_spec_witness :
    flagsTryFrom "F" 8 7 5 = .ok 5 :=
  (flags_tryFrom_spec "F" 8 7 5 (by decide)).1.2 (by decide)

/-- C9: the generated flag-set `contains` is literally
`(!self & other) == EMPTY_FLAGS`, hence every flag-set value contains the
empty set. -/
theorem flags_contains_empty (w self : Nat) :
    (∀ other, flagsContains w self other = (notRepr w self &&& other == 0)) ∧
    flagsContains w self 0 = true := by
  refine ⟨fun other => rfl, ?_⟩
  unfold flagsContains
  simp

/-- Embedding of the per-flag constant computation in `define_flags`
(crates/generate/src/types/flags.rs lines 20-22):
`1u128.checked_shl(i).expect("flag value overflow")` — `checked_shl` on
`u128` returns `None` exactly for shifts `≥ 128` (the earlier
`u32::try_from(i)` only fails even later, at `i ≥ 2^32`), and `none` here
models the `expect` panic aborting emission. -/
def flagValue (i : Nat) : Option Nat :=
  if i < 128 then some (2 ^ i) else none

/-- Embedding of the `all_values` accumulation loop of `define_flags`
(crates/generate/src/types/flags.rs lines 16-27): fold the per-flag
constants for positions `0..n`, aborting if any shift overflows; the
result is the emitted `ALL_FLAGS` value. -/
def defineFlagsAllValues : Nat → Option Nat
  | 0 => some 0
  | n + 1 =>
    match defineFlagsAllValues n, flagValue n with
    | some acc, some v => some (acc + v)
    | _, _ => none

theorem defineFlagsAllValues_eq (n : Nat) :
    defineFlagsAllValues n = if n ≤ 128 then some (2 ^ n - 1) else none := by
  induction n with
  | zero => rfl
  | succ n ih =>
    have hpow : 2 ^ (n + 1) = 2 ^ n * 2 := Nat.pow_succ ..
    have hpos : 0 < 2 ^ n := Nat.pos_pow_of_pos n (by omega)
    unfold defineFlagsAllValues flagValue
    rw [ih]
    by_cases h2 : n < 128
    · rw [if_pos (show n ≤ 128 by omega), if_pos h2,
        if_pos (show n + 1 ≤ 128 by omega)]
      show some (2 ^ n - 1 + 2 ^ n) = some (2 ^ (n + 1) - 1)
      rw [Option.some.injEq]
      omega
    · by_cases h1 : n ≤ 128
      · rw [if_pos h1, if_neg h2, if_neg (show ¬n + 1 ≤ 128 by omega)]
      · rw [if_neg h1, if_neg (show ¬n + 1 ≤ 128 by omega)]

/-- C7 counterexample: a flag-set schema with 65 declared bit positions is
*not* rejected by the emitter — the per-flag values live in `u128`, so
`checked_shl` still succeeds and `ALL_FLAGS = 2^65 - 1` is emitted, though
no repr (max `u64`) can hold bit 64. -/
theorem defineFlags_accepts_65_positions :
    defineFlagsAllValues 65 = some (2 ^ 65 - 1) ∧ 64 < 65 := by
  constructor
  · rw [defineFlagsAllValues_eq]
    simp
  · omega

/-- C7 amended: the emitter rejects a flag-set definition with an overflow
panic exactly when it has more than 128 declared bit positions (the shift
count reaches the `u128` width); up to 128 positions it emits
`ALL_FLAGS = 2^n - 1`. -/
theorem defineFlags_rejects_iff_more_than_128 (n : Nat) :
    defineFlagsAllValues n = none ↔ 128 < n := by
  rw [defineFlagsAllValues_eq]
  split_ifs with h <;> simp <;> omega

/-- C8 counterexample: for a 3-flag `u8` flag set (`ALL_FLAGS = 0b111`),
the value `!EMPTY_FLAGS = 0xFF` — constructible through the generated `Not`
impl — is written successfully at offset 0 of a 4-byte buffer, but the
immediately following read fails with `InvalidFlagValue`: the generated
`write` serializes the repr unchecked while `read` re-validates via
`TryFrom`. -/
theorem flags_write_read_fails_on_out_of_mask_value :
    notRepr 8 0 = 255 ∧
    flagsWrite ⟨0, [0, 0, 0, 0]⟩ 0 1 (notRepr 8 0) = .ok ⟨0, [255, 0, 0, 0]⟩ ∧
    flagsRead "F" ⟨0, [255, 0, 0, 0]⟩ 0 1 7 =
      .error (.invalidFlagValue "F") := by
  decide

/-- C8 amended: the read/write round-trip holds for every flag-set value
that is a *valid* value of its type, i.e. has no bits outside the declared
`ALL_FLAGS` mask: if `write` succeeds, the immediately following `read` of
the same location returns the written value.  (`k` is the repr width in
bytes; with `mask` the full repr range this also covers the primitive
integer types, whose `TryFrom` accepts everything.) -/
theorem flags_write_read_roundtrip (name : String) (m m' : GuestMemory)
    (off k mask v : Nat) (hv : v < 2 ^ (8 * k))
    (hmask : notRepr (8 * k) mask &&& v = 0)
    (hw : flagsWrite m off k v = .ok m') :
    flagsRead name m' off k mask = .ok v := by
  unfold flagsWrite uintWrite at hw
  cases hval : m.validate_size_align off k k with
  | error e => rw [hval] at hw; simp at hw
  | ok x =>
    rw [hval] at hw
    have hm' : m' = ⟨m.base_ptr, writeBytes m.data off (leBytes v k)⟩ := by
      cases hw
      rfl
    subst hm'
    have hlen : (writeBytes m.data off (leBytes v k)).length =
        m.data.length := writeBytes_length m.data off (leBytes v k)
    have hval' : GuestMemory.validate_size_align
        ⟨m.base_ptr, writeBytes m.data off (leBytes v k)⟩ off k k = .ok x := by
      unfold GuestMemory.validate_size_align at hval ⊢
      simp only [GuestMemory.base_len, hlen]
      exact hval
    have hbound : off + k ≤ m.data.length := by
      have hb := validate_size_align_ok_bounds hval
      simpa [GuestMemory.base_len] using hb
    have hrb : readBytes (writeBytes m.data off (leBytes v k)) off k =
        leBytes v k := by
      have hr := readBytes_writeBytes m.data off (leBytes v k)
        (by rw [leBytes_length]; exact hbound)
      rwa [leBytes_length] at hr
    unfold flagsRead uintRead
    rw [hval']
    show flagsTryFrom name (8 * k) mask
      (leVal (readBytes (writeBytes m.data off (leBytes v k)) off k)) = .ok v
    have h256 : (2 : Nat) ^ (8 * k) = 256 ^ k := by
      rw [Nat.pow_mul]
    rw [hrb, leVal_leBytes v k (h256 ▸ hv)]
    unfold flagsTryFrom
    rw [if_neg (by simp [hmask])]

/-- C8 witness for the amended round-trip: writing the in-mask value `0b101`
of a 3-flag `u8` flag set and reading it back returns `0b101`. -/
theorem flags_write_read_roundtrip_witness :
    flagsRead "F" ⟨0, [5, 9]⟩ 0 1 7 = .ok 5 :=
  flags_write_read_roundtrip "F" ⟨0, [9, 9]⟩ ⟨0, [5, 9]⟩ 0 1 7 5 (by decide)
    (by decide) (by decide)
